import Mathlib

/-
Verification of the KeepAlive per-tenant job scheduler (src/main.py).

The Python source is shallowly embedded below. Each Lean definition
corresponds to one Python function or data shape:

  * `TenantConfig`      - the merged settings dictionary a caller of
                          `load_data` observes (the four settings fields).
  * `get_default_data`  - `get_default_data()`.
  * `StoredDoc`         - a possibly partial persisted document (each field
                          may be absent from the MongoDB document).
  * `load_data`         - `load_data(chat_id)`; the boolean argument models
                          whether the global `client` handle is non-None.
  * `ping_bots_task`    - the recurring job body; the Pyrogram client entry
                          (`async with Client(...)`) is modelled by the
                          `acquire` field of `CycleEnv`, and the outcome of
                          `app.send_message(bot, "/start")` for each handle
                          by the `send` field.
  * `toggle_pinger`, `save_interval`, `save_session_string`,
    `save_bot_username`, `remove_bot`, `post_init` - the handlers of the
    same names.

Owner-visible replies are modelled by the `Msg` inductive (message identity
plus payload rather than full presentation text); the per-target report
lines, whose exact content the specification discusses, are kept as the
literal strings built by the source.

The job queue is modelled as a list of `Job` records; `run_repeating`
appends, and `schedule_removal` of every job returned by
`get_jobs_by_name(f"pinger_job_/chat_id/")` is a filter on the chat id,
since that name is determined by the chat id alone.
-/

namespace KeepAlive

/-- The four settings fields of a tenant, after defaulting (`load_data`
merges defaults under the stored document, so every caller sees all four
fields). -/
structure TenantConfig where
  userbot_session : Option String
  target_bots : List String
  ping_interval_seconds : Int
  is_running : Bool
deriving DecidableEq, Repr

/-- `get_default_data()` from the source. -/
def get_default_data : TenantConfig :=
  { userbot_session := none
    target_bots := []
    ping_interval_seconds := 420
    is_running := false }

/-- A persisted document may contain any subset of the settings fields
(`defaults.update(document)` fills the missing ones). `none` in the outer
`Option` means the field is absent from the document. -/
structure StoredDoc where
  userbot_session : Option (Option String)
  target_bots : Option (List String)
  ping_interval_seconds : Option Int
  is_running : Option Bool
deriving DecidableEq, Repr

/-- `load_data(chat_id)`. `clientUp` models `client` being non-None;
`store` models `settings_collection.find_one(\x7b"_id": chat_id\x7d)`. -/
def load_data (clientUp : Bool) (store : Int → Option StoredDoc) (chat_id : Int) :
    TenantConfig :=
  if clientUp = false then get_default_data
  else
    match store chat_id with
    | none => get_default_data
    | some document =>
      { userbot_session := document.userbot_session.getD get_default_data.userbot_session
        target_bots := document.target_bots.getD get_default_data.target_bots
        ping_interval_seconds :=
          document.ping_interval_seconds.getD get_default_data.ping_interval_seconds
        is_running := document.is_running.getD get_default_data.is_running }

/-- Python truthiness of the stored session value: `None` and the empty
string are falsy (`not data["userbot_session"]`). -/
def optStrTruthy : Option String → Bool
  | none => false
  | some s => !(s == "")

/-- One entry of the job queue. The source names every job of a tenant
`pinger_job_<chat_id>`, so the name is recorded as the chat id; `interval`
and `first` are the arguments of the same names to `run_repeating`. -/
structure Job where
  chat_id : Int
  interval : Int
  first : Int
deriving DecidableEq, Repr

/-- Outcome of one `app.send_message(bot_username, "/start")` call:
it either succeeds or raises `UserIsBot`, `PeerIdInvalid`, or some other
exception (recorded by its type name, used in the report line). -/
inductive SendResult
  | success
  | userIsBot
  | peerIdInvalid
  | otherError (name : String)
deriving DecidableEq, Repr

/-- The outcome classes of the specification for a single target. -/
inductive Outcome
  | Ok
  | AlreadyActive
  | InvalidTarget
  | TransientError
deriving DecidableEq, Repr

/-- The class the try/except ladder of `ping_bots_task` assigns to a
per-target send outcome. -/
def classify : SendResult → Outcome
  | SendResult.success => Outcome.Ok
  | SendResult.userIsBot => Outcome.AlreadyActive
  | SendResult.peerIdInvalid => Outcome.InvalidTarget
  | SendResult.otherError _ => Outcome.TransientError

/-- The external collaborators one firing of `ping_bots_task` talks to:
the bot's own username (`f"@/username/"` from `get_me()`), whether entering
`async with Client("userbot", session_string=...)` succeeds (an exception
there carries its message), and the result of sending `/start` to a
handle. -/
structure CycleEnv where
  my_bot_username : String
  acquire : Except String Unit
  send : String → SendResult

/-- `True` exactly when entering the Pyrogram client succeeds. -/
def acquireOk : Except String Unit → Bool
  | Except.ok _ => true
  | Except.error _ => false

/-- The report line `ping_bots_task` appends for one handle. -/
def ping_line (send : String → SendResult) (bot_username : String) : String :=
  match send bot_username with
  | SendResult.success => "✅ `" ++ bot_username ++ "`: OK"
  | SendResult.userIsBot => "✅ `" ++ bot_username ++ "`: Already started (OK)"
  | SendResult.peerIdInvalid => "❌ `" ++ bot_username ++ "`: Invalid username"
  | SendResult.otherError n => "❌ `" ++ bot_username ++ "`: Error (" ++ n ++ ")"

/-- `list(set(data.get("target_bots", []) + [my_bot_username]))`: the
deduplicated union of the stored targets and the self handle (the Python
set iteration order is arbitrary; `List.dedup` fixes one order with the
same membership). -/
def all_bots_to_ping (target_bots : List String) (my_bot_username : String) :
    List String :=
  (target_bots ++ [my_bot_username]).dedup

/-- Owner-visible replies, by identity and payload. -/
inductive Msg
  | sessionNotFoundStopping
  | noBotsStopping
  | pingReport (lines : List String)
  | criticalUserbotError (e : String)
  | pingerStopped
  | cannotStartNoSession
  | pingerStarted (interval_seconds : Int)
  | intervalSet (minutes : Int)
  | scheduleUpdated
  | invalidIntervalInput
deriving DecidableEq, Repr

/-- What one firing of `ping_bots_task` leaves behind: the document as
persisted when the task returns, and the replies sent to the owner.
The task never touches the job queue. -/
structure PingResult where
  data : TenantConfig
  replies : List Msg
deriving DecidableEq, Repr

/-- `ping_bots_task(context)` for one tenant whose loaded settings are
`data`. Mirrors the source control flow: the combined
`not is_running or not userbot_session` guard, the empty-target guard,
then the `async with Client` block whose entry failure is caught by the
outer `except` (critical error). -/
def ping_bots_task (env : CycleEnv) (data : TenantConfig) : PingResult :=
  if data.is_running = false then
    { data := data, replies := [] }
  else if optStrTruthy data.userbot_session = false then
    { data := { data with is_running := false }
      replies := [Msg.sessionNotFoundStopping] }
  else
    let bots := all_bots_to_ping data.target_bots env.my_bot_username
    if bots = [] then
      { data := { data with is_running := false }
        replies := [Msg.noBotsStopping] }
    else
      match env.acquire with
      | Except.ok _ =>
        { data := data
          replies := [Msg.pingReport (bots.map (ping_line env.send))] }
      | Except.error e =>
        { data := { data with is_running := false }
          replies := [Msg.criticalUserbotError e] }

/-- Conversation states, `range(5)` in source order. -/
def SELECTING_ACTION : Nat := 0

/-- Conversation state `AWAIT_BOT_USERNAME`. -/
def AWAIT_BOT_USERNAME : Nat := 1

/-- Conversation state `AWAIT_SESSION_STRING`. -/
def AWAIT_SESSION_STRING : Nat := 2

/-- Conversation state `AWAIT_INTERVAL`. -/
def AWAIT_INTERVAL : Nat := 3

/-- Conversation state `MANAGE_BOTS`. -/
def MANAGE_BOTS : Nat := 4

/-- What a conversation handler leaves behind: persisted document, job
queue, replies, and the conversation state it returns. -/
structure HandlerResult where
  data : TenantConfig
  jobs : List Job
  replies : List Msg
  next_state : Nat
deriving DecidableEq, Repr

/-- `toggle_pinger(update, context)` for the tenant `chat_id` whose loaded
settings are `data` while the job queue holds `jobs` (the database
connection is assumed up, otherwise the handler returns before acting). -/
def toggle_pinger (data : TenantConfig) (jobs : List Job) (chat_id : Int) :
    HandlerResult :=
  if data.is_running then
    { data := { data with is_running := false }
      jobs := jobs.filter (fun j => !(j.chat_id == chat_id))
      replies := [Msg.pingerStopped]
      next_state := SELECTING_ACTION }
  else if optStrTruthy data.userbot_session = false then
    { data := data
      jobs := jobs
      replies := [Msg.cannotStartNoSession]
      next_state := SELECTING_ACTION }
  else
    { data := { data with is_running := true }
      jobs := jobs ++ [{ chat_id := chat_id
                         interval := data.ping_interval_seconds
                         first := 5 }]
      replies := [Msg.pingerStarted data.ping_interval_seconds]
      next_state := SELECTING_ACTION }

/-- `save_interval(update, context)`. `parsed` models the result of
`int(update.message.text)`: `none` when the parse raises. On success the
value is checked against 1, the interval is persisted, and the job is
re-registered only when `is_running` is true. Every path returns
`SELECTING_ACTION`. -/
def save_interval (parsed : Option Int) (data0 : TenantConfig)
    (jobs : List Job) (chat_id : Int) : HandlerResult :=
  match parsed with
  | none =>
    { data := data0, jobs := jobs
      replies := [Msg.invalidIntervalInput], next_state := SELECTING_ACTION }
  | some interval_minutes =>
    if interval_minutes < 1 then
      { data := data0, jobs := jobs
        replies := [Msg.invalidIntervalInput], next_state := SELECTING_ACTION }
    else
      let data : TenantConfig :=
        { data0 with ping_interval_seconds := interval_minutes * 60 }
      if data.is_running then
        { data := data
          jobs := jobs.filter (fun j => !(j.chat_id == chat_id)) ++
            [{ chat_id := chat_id
               interval := data.ping_interval_seconds
               first := 1 }]
          replies := [Msg.intervalSet interval_minutes, Msg.scheduleUpdated]
          next_state := SELECTING_ACTION }
      else
        { data := data
          jobs := jobs
          replies := [Msg.intervalSet interval_minutes]
          next_state := SELECTING_ACTION }

/-- `save_session_string(update, context)`: stores the text verbatim. -/
def save_session_string (text : String) (data : TenantConfig) : TenantConfig :=
  { data with userbot_session := some text }

/-- `remove_bot(update, context)` for handle `bot_username`:
`list.remove` drops the first occurrence when present. -/
def remove_bot (bot_username : String) (data : TenantConfig) : TenantConfig :=
  if bot_username ∈ data.target_bots then
    { data with target_bots := data.target_bots.erase bot_username }
  else data

/-- `post_init(application)`: for every stored document matching
`find(\x7b"is_running": True\x7d)`, register a repeating job at the
document's interval (default 420) with `first=10`. -/
def post_init (store : List (Int × StoredDoc)) : List Job :=
  (store.filter (fun t => t.2.is_running == some true)).map
    (fun t => { chat_id := t.1
                interval := t.2.ping_interval_seconds.getD 420
                first := 10 })

/-- A character of the class `[a-zA-Z0-9_]`. -/
def isWordChar (c : Char) : Bool := c.isAlpha || c.isDigit || c == '_'

/-- One scanning pass of `re.findall(r"@[a-zA-Z0-9_]\x7b5,32\x7d", text)`,
with explicit fuel so the recursion is structural: every step consumes one
unit of fuel and at least one character, so fuel equal to the input length
(as supplied by `findall_handles`) never runs out before the scan ends.
At an `@`, the greedy quantifier takes the run of word characters after
it, capped at 32; the match succeeds when the run has at least 5
characters, and scanning resumes right after the matched portion (a match
cannot start at a word character, so skipping the consumed run is exact).
On failure scanning advances one character. -/
def findall_aux : Nat → List Char → List (List Char)
  | 0, _ => []
  | _, [] => []
  | fuel + 1, c :: rest =>
    if c == '@' then
      let run := rest.takeWhile isWordChar
      if 5 ≤ run.length then
        (c :: run.take 32) :: findall_aux fuel (rest.drop (run.take 32).length)
      else
        findall_aux fuel rest
    else
      findall_aux fuel rest

/-- `re.findall(r"@[a-zA-Z0-9_]\x7b5,32\x7d", raw_text)` over a character
list. -/
def findall_handles (l : List Char) : List (List Char) :=
  findall_aux l.length l

/-- Why a handle found in the message was not added. -/
inductive SkipReason
  | selfBot
  | alreadyAdded
deriving DecidableEq, Repr

/-- The `for bot in potential_bots` loop of `save_bot_username`:
`existing` is the membership set (`existing_bots`), `added` and `skipped`
the report accumulators, all in iteration order. -/
def add_bots_loop (my_bot_username : String) :
    List String → List String → List String → List (String × SkipReason) →
    List String × List String × List (String × SkipReason)
  | [], existing, added, skipped => (existing, added, skipped)
  | bot :: rest, existing, added, skipped =>
    if bot = my_bot_username then
      add_bots_loop my_bot_username rest existing added
        (skipped ++ [(bot, SkipReason.selfBot)])
    else if bot ∈ existing then
      add_bots_loop my_bot_username rest existing added
        (skipped ++ [(bot, SkipReason.alreadyAdded)])
    else
      add_bots_loop my_bot_username rest (existing ++ [bot])
        (added ++ [bot]) skipped

/-- What `save_bot_username` leaves behind: the document (written once,
and only when `saved` is true), the report accumulators, and the
conversation state returned. -/
structure AddBotsResult where
  data : TenantConfig
  saved : Bool
  added : List String
  skipped : List (String × SkipReason)
  next_state : Nat
deriving DecidableEq, Repr

/-- The handles `re.findall` extracts from the message text. -/
def extract_handles (raw_text : String) : List String :=
  (findall_handles raw_text.data).map (fun cs => String.mk cs)

/-- `save_bot_username(update, context)`. Empty extraction replies and
stays in `AWAIT_BOT_USERNAME`; otherwise the loop runs over the extracted
handles with `existing_bots = set(data.get("target_bots", []))`, and the
document is written once, as `sorted(list(existing_bots))`, only when
anything was added. -/
def save_bot_username (raw_text : String) (my_bot_username : String)
    (data : TenantConfig) : AddBotsResult :=
  let potential_bots := extract_handles raw_text
  if potential_bots = [] then
    { data := data, saved := false, added := [], skipped := []
      next_state := AWAIT_BOT_USERNAME }
  else
    let r := add_bots_loop my_bot_username potential_bots
      data.target_bots.dedup [] []
    if r.2.1 = [] then
      { data := data, saved := false, added := r.2.1, skipped := r.2.2
        next_state := MANAGE_BOTS }
    else
      { data := { data with target_bots := r.1.insertionSort (· ≤ ·) }
        saved := true, added := r.2.1, skipped := r.2.2
        next_state := MANAGE_BOTS }

/-- The observable per-tenant state between handler invocations: the
persisted document (as `load_data` will next see it) and the job queue. -/
structure BotState where
  cfg : TenantConfig
  jobs : List Job
deriving DecidableEq, Repr

/-- One tenant-facing operation: the conversation handlers that can run
for the tenant, and a firing of the tenant's repeating job. -/
inductive Op
  | toggle
  | setInterval (parsed : Option Int)
  | setSession (text : String)
  | addBots (text : String) (my : String)
  | removeBot (bot_username : String)
  | ping (env : CycleEnv)

/-- Apply one operation for tenant `chat_id`, keeping the persisted
document and the job queue (replies are dropped here). -/
def applyOp (chat_id : Int) (op : Op) (s : BotState) : BotState :=
  match op with
  | Op.toggle =>
    let r := toggle_pinger s.cfg s.jobs chat_id
    { cfg := r.data, jobs := r.jobs }
  | Op.setInterval p =>
    let r := save_interval p s.cfg s.jobs chat_id
    { cfg := r.data, jobs := r.jobs }
  | Op.setSession t => { cfg := save_session_string t s.cfg, jobs := s.jobs }
  | Op.addBots text my =>
    { cfg := (save_bot_username text my s.cfg).data, jobs := s.jobs }
  | Op.removeBot b => { cfg := remove_bot b s.cfg, jobs := s.jobs }
  | Op.ping env => { cfg := (ping_bots_task env s.cfg).data, jobs := s.jobs }

/-- Run a sequence of operations for tenant `chat_id`. -/
def runOps (chat_id : Int) (ops : List Op) (s : BotState) : BotState :=
  ops.foldl (fun st op => applyOp chat_id op st) s

/-- The jobs registered under the tenant's name `pinger_job_<chat_id>`. -/
def jobs_for (jobs : List Job) (chat_id : Int) : List Job :=
  jobs.filter (fun j => j.chat_id == chat_id)

/-- The single-timer invariant, with the coupling that makes it inductive:
a tenant persisted as not running has no registered job. -/
def singleTimerInv (chat_id : Int) (s : BotState) : Prop :=
  (jobs_for s.jobs chat_id).length ≤ 1 ∧
  (s.cfg.is_running = false → jobs_for s.jobs chat_id = [])

instance (chat_id : Int) (s : BotState) : Decidable (singleTimerInv chat_id s) := by
  unfold singleTimerInv
  infer_instance

/-- An operation is benign in a state when it is not a firing of the ping
task that takes a stopping path: while the tenant is running, a benign
firing has a truthy session and a successful capability acquisition. -/
def benign (op : Op) (s : BotState) : Prop :=
  match op with
  | Op.ping env =>
    s.cfg.is_running = true →
      (optStrTruthy s.cfg.userbot_session = true ∧ acquireOk env.acquire = true)
  | _ => True

/-- Every operation of the sequence is benign in the state it runs in. -/
def benignRun (chat_id : Int) : List Op → BotState → Prop
  | [], _ => True
  | op :: rest, s => benign op s ∧ benignRun chat_id rest (applyOp chat_id op s)

instance (op : Op) (s : BotState) : Decidable (benign op s) := by
  unfold benign
  cases op <;> infer_instance

instance decBenignRun (chat_id : Int) :
    (ops : List Op) → (s : BotState) → Decidable (benignRun chat_id ops s)
  | [], _ => by
    unfold benignRun
    infer_instance
  | op :: rest, s => by
    unfold benignRun
    have := decBenignRun chat_id rest (applyOp chat_id op s)
    infer_instance

/-- A fresh tenant that has stored a session string: the state right
after `save_session_string` on a never-written tenant. -/
def s0 : BotState :=
  { cfg := { get_default_data with userbot_session := some "sess" }, jobs := [] }

/-- A tenant persisted as running with a stored session. -/
def cfgRunning : TenantConfig :=
  { userbot_session := some "sess", target_bots := []
    ping_interval_seconds := 420, is_running := true }

/-- A cycle environment whose Pyrogram client entry fails. -/
def envFail : CycleEnv :=
  { my_bot_username := "@keepalive_bot"
    acquire := Except.error "AuthKeyInvalid"
    send := fun _ => SendResult.success }

/-- A cycle environment where acquisition and every send succeed. -/
def envOk : CycleEnv :=
  { my_bot_username := "@keepalive_bot"
    acquire := Except.ok ()
    send := fun _ => SendResult.success }

/-- A partial stored document: only interval and flag present. -/
def docPartial : StoredDoc :=
  { userbot_session := none, target_bots := none
    ping_interval_seconds := some 60, is_running := some true }

/-- Tenant A of the recovery scenario: running at interval 60. -/
def docA : StoredDoc :=
  { userbot_session := some (some "sessA"), target_bots := some ["@a_bot"]
    ping_interval_seconds := some 60, is_running := some true }

/-- Tenant B of the recovery scenario: not running. -/
def docB : StoredDoc :=
  { userbot_session := some (some "sessB"), target_bots := none
    ping_interval_seconds := none, is_running := some false }

/-- The recovery-scenario store: tenant 1 running at interval 60,
tenant 2 not running. -/
def storeAB : List (Int × StoredDoc) := [(1, docA), (2, docB)]

/-- The ping-cycle scenario tenant: targets `@a_bot` and `@b_bot`,
running at interval 60. -/
def cfgT42 : TenantConfig :=
  { userbot_session := some "sess42", target_bots := ["@a_bot", "@b_bot"]
    ping_interval_seconds := 60, is_running := true }

lemma jobs_for_append (a b : List Job) (chat_id : Int) :
    jobs_for (a ++ b) chat_id = jobs_for a chat_id ++ jobs_for b chat_id := by
  simp [jobs_for, List.filter_append]

lemma jobs_for_removeAll (jobs : List Job) (chat_id : Int) :
    jobs_for (jobs.filter (fun j => !(j.chat_id == chat_id))) chat_id = [] := by
  simp only [jobs_for]
  rw [List.filter_filter]
  simp

lemma save_bot_username_is_running (t my : String) (data : TenantConfig) :
    (save_bot_username t my data).data.is_running = data.is_running := by
  by_cases h : extract_handles t = []
  · simp [save_bot_username, h]
  · by_cases h2 :
      (add_bots_loop my (extract_handles t) data.target_bots.dedup [] []).2.1 = []
    · simp [save_bot_username, h, h2]
    · simp [save_bot_username, h, h2]

lemma remove_bot_is_running (b : String) (data : TenantConfig) :
    (remove_bot b data).is_running = data.is_running := by
  unfold remove_bot
  split <;> rfl

lemma mem_all_bots_self (target_bots : List String) (my : String) :
    my ∈ all_bots_to_ping target_bots my := by
  unfold all_bots_to_ping
  rw [List.mem_dedup]
  simp

lemma all_bots_ne_nil (target_bots : List String) (my : String) :
    all_bots_to_ping target_bots my ≠ [] :=
  List.ne_nil_of_mem (mem_all_bots_self target_bots my)

/-- A running tenant with a truthy session and a successful acquisition:
the ping task succeeds and leaves the document untouched. -/
lemma ping_ok_data (env : CycleEnv) (data : TenantConfig)
    (hr : data.is_running = true)
    (hs : optStrTruthy data.userbot_session = true)
    (ha : acquireOk env.acquire = true) :
    (ping_bots_task env data).data = data := by
  cases hacq : env.acquire with
  | ok u =>
    simp [ping_bots_task, hr, hs,
      all_bots_ne_nil data.target_bots env.my_bot_username, hacq]
  | error e => simp [acquireOk, hacq] at ha

/-- A benign operation preserves the single-timer invariant. -/
lemma step_inv (chat_id : Int) (op : Op) (s : BotState)
    (h : singleTimerInv chat_id s) (hb : benign op s) :
    singleTimerInv chat_id (applyOp chat_id op s) := by
  obtain ⟨hlen, himp⟩ := h
  cases op with
  | toggle =>
    by_cases hr : s.cfg.is_running = true
    · simp [applyOp, toggle_pinger, hr, singleTimerInv, jobs_for_removeAll]
    · have hr' : s.cfg.is_running = false := by
        cases hrb : s.cfg.is_running
        · rfl
        · exact absurd hrb hr
      have h0 : jobs_for s.jobs chat_id = [] := himp hr'
      by_cases hs : optStrTruthy s.cfg.userbot_session = true
      · constructor
        · have h0' : ∀ a ∈ s.jobs, ¬a.chat_id = chat_id := by
            simpa [jobs_for, List.filter_eq_nil_iff] using h0
          simp [applyOp, toggle_pinger, hr', hs, jobs_for_append, h0, jobs_for]
          exact h0'
        · intro hfalse
          simp [applyOp, toggle_pinger, hr', hs] at hfalse
      · have hs' : optStrTruthy s.cfg.userbot_session = false := by
          cases hsb : optStrTruthy s.cfg.userbot_session
          · rfl
          · exact absurd hsb hs
        constructor
        · simpa [applyOp, toggle_pinger, hr', hs'] using hlen
        · intro _
          simpa [applyOp, toggle_pinger, hr', hs'] using h0
  | setInterval parsed =>
    cases parsed with
    | none =>
      constructor
      · simpa [applyOp, save_interval] using hlen
      · intro hfalse
        simp only [applyOp, save_interval] at hfalse ⊢
        exact himp hfalse
    | some m =>
      by_cases hm : m < 1
      · constructor
        · simpa [applyOp, save_interval, hm] using hlen
        · intro hfalse
          simp only [applyOp, save_interval, if_pos hm] at hfalse ⊢
          exact himp hfalse
      · by_cases hr : s.cfg.is_running = true
        · constructor
          · simp [applyOp, save_interval, hm, hr, jobs_for_append,
              jobs_for_removeAll, jobs_for]
          · intro hfalse
            simp [applyOp, save_interval, hm, hr] at hfalse
        · have hr' : s.cfg.is_running = false := by
            cases hrb : s.cfg.is_running
            · rfl
            · exact absurd hrb hr
          constructor
          · simpa [applyOp, save_interval, hm, hr'] using hlen
          · intro _
            simpa [applyOp, save_interval, hm, hr'] using himp hr'
  | setSession t =>
    constructor
    · simpa [applyOp, save_session_string] using hlen
    · intro hfalse
      simp only [applyOp, save_session_string] at hfalse ⊢
      exact himp hfalse
  | addBots text my =>
    constructor
    · simpa [applyOp] using hlen
    · intro hfalse
      simp only [applyOp] at hfalse ⊢
      rw [save_bot_username_is_running] at hfalse
      exact himp hfalse
  | removeBot b =>
    constructor
    · simpa [applyOp] using hlen
    · intro hfalse
      simp only [applyOp] at hfalse ⊢
      rw [remove_bot_is_running] at hfalse
      exact himp hfalse
  | ping env =>
    by_cases hr : s.cfg.is_running = true
    · obtain ⟨hs, ha⟩ := hb hr
      have hd := ping_ok_data env s.cfg hr hs ha
      constructor
      · simpa [applyOp, hd] using hlen
      · intro hfalse
        simp only [applyOp, hd] at hfalse ⊢
        exact himp hfalse
    · have hr' : s.cfg.is_running = false := by
        cases hrb : s.cfg.is_running
        · rfl
        · exact absurd hrb hr
      constructor
      · simpa [applyOp, ping_bots_task, hr'] using hlen
      · intro _
        simpa [applyOp, ping_bots_task, hr'] using himp hr'

/-- The invariant is preserved along any benign sequence. -/
lemma inv_runOps (chat_id : Int) :
    ∀ (ops : List Op) (s : BotState), singleTimerInv chat_id s →
      benignRun chat_id ops s → singleTimerInv chat_id (runOps chat_id ops s) := by
  intro ops
  induction ops with
  | nil =>
    intro s h _
    simpa [runOps] using h
  | cons op rest ih =>
    intro s h hb
    have hstep := step_inv chat_id op s h hb.1
    have := ih (applyOp chat_id op s) hstep hb.2
    simpa [runOps] using this

/-- A benign sequence stays benign on any prefix. -/
lemma benignRun_append (chat_id : Int) :
    ∀ (a b : List Op) (s : BotState),
      benignRun chat_id (a ++ b) s → benignRun chat_id a s := by
  intro a
  induction a with
  | nil =>
    intro b s _
    trivial
  | cons op rest ih =>
    intro b s h
    exact ⟨h.1, ih b (applyOp chat_id op s) h.2⟩

/-- Membership in the final `existing_bots` set: what was there before,
plus the extracted handles other than the bot's own username. -/
lemma add_bots_loop_mem (my : String) :
    ∀ (pb existing added : List String) (skipped : List (String × SkipReason))
      (b : String),
      b ∈ (add_bots_loop my pb existing added skipped).1 ↔
        b ∈ existing ∨ (b ∈ pb ∧ b ≠ my) := by
  intro pb
  induction pb with
  | nil =>
    intro existing added skipped b
    simp [add_bots_loop]
  | cons bot rest ih =>
    intro existing added skipped b
    by_cases h1 : bot = my
    · rw [add_bots_loop, if_pos h1, ih]
      subst h1
      constructor
      · rintro (hx | ⟨hx, hy⟩)
        · exact Or.inl hx
        · exact Or.inr ⟨List.mem_cons_of_mem _ hx, hy⟩
      · rintro (hx | ⟨hx, hy⟩)
        · exact Or.inl hx
        · rcases List.mem_cons.mp hx with hx | hx
          · exact absurd hx hy
          · exact Or.inr ⟨hx, hy⟩
    · by_cases h2 : bot ∈ existing
      · rw [add_bots_loop, if_neg h1, if_pos h2, ih]
        constructor
        · rintro (hx | ⟨hx, hy⟩)
          · exact Or.inl hx
          · exact Or.inr ⟨List.mem_cons_of_mem _ hx, hy⟩
        · rintro (hx | ⟨hx, hy⟩)
          · exact Or.inl hx
          · rcases List.mem_cons.mp hx with hx | hx
            · exact Or.inl (hx ▸ h2)
            · exact Or.inr ⟨hx, hy⟩
      · rw [add_bots_loop, if_neg h1, if_neg h2, ih]
        constructor
        · rintro (hx | ⟨hx, hy⟩)
          · rcases List.mem_append.mp hx with hx | hx
            · exact Or.inl hx
            · have hb : b = bot := by simpa using hx
              subst hb
              exact Or.inr ⟨List.mem_cons_self _ _, h1⟩
          · exact Or.inr ⟨List.mem_cons_of_mem _ hx, hy⟩
        · rintro (hx | ⟨hx, hy⟩)
          · exact Or.inl (List.mem_append.mpr (Or.inl hx))
          · rcases List.mem_cons.mp hx with hx | hx
            · exact Or.inl (List.mem_append.mpr (Or.inr (by simp [hx])))
            · exact Or.inr ⟨hx, hy⟩

/-- The final `existing_bots` set has no duplicates. -/
lemma add_bots_loop_nodup (my : String) :
    ∀ (pb existing added : List String) (skipped : List (String × SkipReason)),
      existing.Nodup → (add_bots_loop my pb existing added skipped).1.Nodup := by
  intro pb
  induction pb with
  | nil =>
    intro existing added skipped hex
    simpa [add_bots_loop] using hex
  | cons bot rest ih =>
    intro existing added skipped hex
    by_cases h1 : bot = my
    · rw [add_bots_loop, if_pos h1]
      exact ih _ _ _ hex
    · by_cases h2 : bot ∈ existing
      · rw [add_bots_loop, if_neg h1, if_pos h2]
        exact ih _ _ _ hex
      · rw [add_bots_loop, if_neg h1, if_neg h2]
        refine ih _ _ _ ?_
        exact (List.perm_append_singleton bot existing).nodup_iff.mpr
          (by simp [hex, h2])

/-- Every reported addition is a handle from the message that is neither
the bot's own username nor already present. -/
lemma add_bots_loop_added_mem (my : String) :
    ∀ (pb existing added : List String) (skipped : List (String × SkipReason))
      (b : String),
      b ∈ (add_bots_loop my pb existing added skipped).2.1 →
        b ∈ added ∨ (b ≠ my ∧ b ∉ existing ∧ b ∈ pb) := by
  intro pb
  induction pb with
  | nil =>
    intro existing added skipped b hb
    exact Or.inl (by simpa [add_bots_loop] using hb)
  | cons bot rest ih =>
    intro existing added skipped b hb
    by_cases h1 : bot = my
    · rw [add_bots_loop, if_pos h1] at hb
      rcases ih _ _ _ _ hb with hx | ⟨hx, hy, hz⟩
      · exact Or.inl hx
      · exact Or.inr ⟨hx, hy, List.mem_cons_of_mem _ hz⟩
    · by_cases h2 : bot ∈ existing
      · rw [add_bots_loop, if_neg h1, if_pos h2] at hb
        rcases ih _ _ _ _ hb with hx | ⟨hx, hy, hz⟩
        · exact Or.inl hx
        · exact Or.inr ⟨hx, hy, List.mem_cons_of_mem _ hz⟩
      · rw [add_bots_loop, if_neg h1, if_neg h2] at hb
        rcases ih _ _ _ _ hb with hx | ⟨hx, hy, hz⟩
        · rcases List.mem_append.mp hx with hx | hx
          · exact Or.inl hx
          · have hbb : b = bot := by simpa using hx
            subst hbb
            exact Or.inr ⟨h1, h2, List.mem_cons_self _ _⟩
        · have hy' : b ∉ existing := fun hc =>
            hy (List.mem_append.mpr (Or.inl hc))
          exact Or.inr ⟨hx, hy', List.mem_cons_of_mem _ hz⟩

/-- The report of additions has no duplicates (an already-added handle is
skipped), provided the accumulators start consistent. -/
lemma add_bots_loop_added_nodup (my : String) :
    ∀ (pb existing added : List String) (skipped : List (String × SkipReason)),
      added.Nodup → (∀ b ∈ added, b ∈ existing) →
      (add_bots_loop my pb existing added skipped).2.1.Nodup := by
  intro pb
  induction pb with
  | nil =>
    intro existing added skipped hnd _
    simpa [add_bots_loop] using hnd
  | cons bot rest ih =>
    intro existing added skipped hnd hsub
    by_cases h1 : bot = my
    · rw [add_bots_loop, if_pos h1]
      exact ih _ _ _ hnd hsub
    · by_cases h2 : bot ∈ existing
      · rw [add_bots_loop, if_neg h1, if_pos h2]
        exact ih _ _ _ hnd hsub
      · rw [add_bots_loop, if_neg h1, if_neg h2]
        refine ih _ _ _ ?_ ?_
        · have hbot : bot ∉ added := fun hc => h2 (hsub bot hc)
          exact (List.perm_append_singleton bot added).nodup_iff.mpr
            (by simp [hnd, hbot])
        · intro b hb
          rcases List.mem_append.mp hb with hb | hb
          · exact List.mem_append.mpr (Or.inl (hsub b hb))
          · exact List.mem_append.mpr (Or.inr hb)

/-- Every extracted handle is accounted for exactly once, as added or as
skipped. -/
lemma add_bots_loop_count (my : String) :
    ∀ (pb existing added : List String) (skipped : List (String × SkipReason))
      (b : String),
      (add_bots_loop my pb existing added skipped).2.1.count b +
        ((add_bots_loop my pb existing added skipped).2.2.map Prod.fst).count b =
      added.count b + (skipped.map Prod.fst).count b + pb.count b := by
  intro pb
  induction pb with
  | nil =>
    intro existing added skipped b
    simp [add_bots_loop]
  | cons bot rest ih =>
    intro existing added skipped b
    by_cases h1 : bot = my
    · rw [add_bots_loop, if_pos h1, ih]
      by_cases hb : b = bot <;>
        · simp [List.count_append, List.count_cons, hb]
          try omega
    · by_cases h2 : bot ∈ existing
      · rw [add_bots_loop, if_neg h1, if_pos h2, ih]
        by_cases hb : b = bot <;>
          · simp [List.count_append, List.count_cons, hb]
            try omega
      · rw [add_bots_loop, if_neg h1, if_neg h2, ih]
        by_cases hb : b = bot <;>
          · simp [List.count_append, List.count_cons, hb]
            try omega

/-- Claim C1, counterexample: tenant 1 stores a session, starts the
pinger, and a cycle fires whose capability acquisition fails. Afterwards
the persisted running flag is false and the owner got exactly one
critical-error report, but — against the claim — the tenant's timer is
still registered. -/
theorem C1_counterexample :
    (runOps 1 [Op.toggle, Op.ping envFail] s0).cfg.is_running = false ∧
    (ping_bots_task envFail (runOps 1 [Op.toggle] s0).cfg).replies =
      [Msg.criticalUserbotError "AuthKeyInvalid"] ∧
    jobs_for (runOps 1 [Op.toggle, Op.ping envFail] s0).jobs 1 =
      [{ chat_id := 1, interval := 420, first := 5 }] := by
  refine ⟨by decide, by decide, by decide⟩

/-- Claim C1 (amended): for a running tenant with a truthy session whose
cycle fails at capability acquisition, the cycle persists
`is_running = false` and sends exactly one critical-error report, but the
firing leaves the job queue untouched: the timer stays registered (its
later firings are no-ops while the flag is false). -/
theorem C1_acquisition_failure (chat_id : Int) (env : CycleEnv)
    (s : BotState) (e : String)
    (hr : s.cfg.is_running = true)
    (hs : optStrTruthy s.cfg.userbot_session = true)
    (ha : env.acquire = Except.error e) :
    (ping_bots_task env s.cfg).data = { s.cfg with is_running := false } ∧
    (ping_bots_task env s.cfg).replies = [Msg.criticalUserbotError e] ∧
    (applyOp chat_id (Op.ping env) s).jobs = s.jobs := by
  have hne := all_bots_ne_nil s.cfg.target_bots env.my_bot_username
  refine ⟨?_, ?_, rfl⟩ <;> simp [ping_bots_task, hr, hs, hne, ha]

/-- Claim C1 witness: the amended theorem at a concrete running tenant. -/
theorem C1_witness :
    (ping_bots_task envFail cfgRunning).data =
      { cfgRunning with is_running := false } ∧
    (ping_bots_task envFail cfgRunning).replies =
      [Msg.criticalUserbotError "AuthKeyInvalid"] :=
  ⟨(C1_acquisition_failure 1 envFail { cfg := cfgRunning, jobs := [] }
      "AuthKeyInvalid" rfl (by decide) rfl).1,
   (C1_acquisition_failure 1 envFail { cfg := cfgRunning, jobs := [] }
      "AuthKeyInvalid" rfl (by decide) rfl).2.1⟩

/-- Claim C3: `start` (the not-running branch of `toggle_pinger`) on a
tenant whose session credential is falsy reports the precondition failure,
leaves the document untouched (so `running` stays false), and registers no
timer; and no operation ever flips the persisted running flag from false
to true while leaving a falsy session credential in place. -/
theorem C3_start_precondition :
    (∀ (data : TenantConfig) (jobs : List Job) (chat_id : Int),
      data.is_running = false → optStrTruthy data.userbot_session = false →
        toggle_pinger data jobs chat_id =
          { data := data, jobs := jobs, replies := [Msg.cannotStartNoSession],
            next_state := SELECTING_ACTION }) ∧
    (∀ (chat_id : Int) (op : Op) (s : BotState),
      (applyOp chat_id op s).cfg.is_running = true →
      s.cfg.is_running = false →
        optStrTruthy (applyOp chat_id op s).cfg.userbot_session = true) := by
  constructor
  · intro data jobs chat_id h1 h2
    simp [toggle_pinger, h1, h2]
  · intro chat_id op s h1 h2
    cases op with
    | toggle =>
      by_cases hs : optStrTruthy s.cfg.userbot_session = true
      · simp [applyOp, toggle_pinger, h2, hs]
      · have hs' : optStrTruthy s.cfg.userbot_session = false := by
          cases hsb : optStrTruthy s.cfg.userbot_session
          · rfl
          · exact absurd hsb hs
        simp [applyOp, toggle_pinger, h2, hs'] at h1
    | setInterval parsed =>
      cases parsed with
      | none => simp [applyOp, save_interval, h2] at h1
      | some m =>
        by_cases hm : m < 1
        · simp [applyOp, save_interval, hm, h2] at h1
        · simp [applyOp, save_interval, hm, h2] at h1
    | setSession t => simp [applyOp, save_session_string, h2] at h1
    | addBots text my =>
      rw [applyOp] at h1
      simp only [applyOp]
      rw [save_bot_username_is_running] at h1
      exact absurd h1 (by simp [h2])
    | removeBot b =>
      rw [applyOp] at h1
      simp only [applyOp]
      rw [remove_bot_is_running] at h1
      exact absurd h1 (by simp [h2])
    | ping env => simp [applyOp, ping_bots_task, h2] at h1

/-- Claim C3 witness: the precondition branch on a fresh tenant, and the
flip property on the one operation that does set the flag. -/
theorem C3_witness :
    toggle_pinger get_default_data [] 1 =
      { data := get_default_data, jobs := [], replies := [Msg.cannotStartNoSession],
        next_state := SELECTING_ACTION } ∧
    optStrTruthy (applyOp 1 Op.toggle s0).cfg.userbot_session = true :=
  ⟨C3_start_precondition.1 get_default_data [] 1 rfl rfl,
   C3_start_precondition.2 1 Op.toggle s0 (by decide) rfl⟩

/-- Claim C5, counterexample: a non-integer input (`int` raises) in the
`AWAIT_INTERVAL` state leaves the stored interval unchanged, but the
handler returns `SELECTING_ACTION` (the menu), not `AWAIT_INTERVAL` as the
claim states. -/
theorem C5_counterexample :
    (save_interval none get_default_data [] 1).next_state = SELECTING_ACTION ∧
    SELECTING_ACTION ≠ AWAIT_INTERVAL ∧
    (save_interval none get_default_data [] 1).data = get_default_data := by
  refine ⟨rfl, by decide, rfl⟩

/-- Claim C5 (amended): for every input whose integer parse fails or whose
value is below 1, the persisted document (in particular
`ping_interval_seconds`) and the job queue are unchanged and an
invalid-input reply is sent, but the handler returns to the menu state
`SELECTING_ACTION` instead of staying in `AWAIT_INTERVAL`. -/
theorem C5_invalid_interval (parsed : Option Int) (data : TenantConfig)
    (jobs : List Job) (chat_id : Int)
    (h : parsed = none ∨ ∃ m, parsed = some m ∧ m < 1) :
    save_interval parsed data jobs chat_id =
      { data := data, jobs := jobs, replies := [Msg.invalidIntervalInput],
        next_state := SELECTING_ACTION } := by
  rcases h with h | ⟨m, hm, hlt⟩
  · subst h
    rfl
  · subst hm
    simp [save_interval, hlt]

/-- Claim C5 witness: the amended theorem at the concrete input `0`. -/
theorem C5_witness :
    save_interval (some 0) get_default_data [] 1 =
      { data := get_default_data, jobs := [], replies := [Msg.invalidIntervalInput],
        next_state := SELECTING_ACTION } :=
  C5_invalid_interval (some 0) get_default_data [] 1 (Or.inr ⟨0, rfl, by decide⟩)

/-- Claim C6, counterexample: after a start and a fatally failing cycle, a
timer is still registered for tenant 1 while `running` is false; a valid
interval update to 2 minutes then persists 120 seconds but neither cancels
the registered timer (it survives at interval 420) nor registers a
replacement at the new interval — against the claim, which keys the
behaviour on a timer being registered. -/
theorem C6_counterexample :
    jobs_for (runOps 1 [Op.toggle, Op.ping envFail] s0).jobs 1 ≠ [] ∧
    (runOps 1 [Op.toggle, Op.ping envFail, Op.setInterval (some 2)] s0).jobs =
      [{ chat_id := 1, interval := 420, first := 5 }] ∧
    (runOps 1 [Op.toggle, Op.ping envFail, Op.setInterval (some 2)] s0).cfg.ping_interval_seconds = 120 ∧
    ({ chat_id := 1, interval := 120, first := 1 } : Job) ∉
      (runOps 1 [Op.toggle, Op.ping envFail, Op.setInterval (some 2)] s0).jobs := by
  refine ⟨by decide, by decide, by decide, by decide⟩

/-- Claim C6 (amended): a valid interval update persists the new interval
and is keyed on the persisted running flag, not on a timer being
registered: when `running` is true it cancels every timer of the tenant
and registers a replacement at the new interval; when `running` is false
it leaves the job queue untouched, even if a timer is registered. -/
theorem C6_reschedule_keyed_on_flag (m : Int) (data : TenantConfig)
    (jobs : List Job) (chat_id : Int) (hm : 1 ≤ m) :
    (save_interval (some m) data jobs chat_id).data.ping_interval_seconds = m * 60 ∧
    (data.is_running = true →
      (save_interval (some m) data jobs chat_id).jobs =
        jobs.filter (fun j => !(j.chat_id == chat_id)) ++
          [{ chat_id := chat_id, interval := m * 60, first := 1 }]) ∧
    (data.is_running = false →
      (save_interval (some m) data jobs chat_id).jobs = jobs) := by
  have hm' : ¬m < 1 := by omega
  refine ⟨?_, ?_, ?_⟩
  · cases hb : data.is_running
    · simp [save_interval, hm', hb]
    · simp [save_interval, hm', hb]
  · intro hb
    simp [save_interval, hm', hb]
  · intro hb
    simp [save_interval, hm', hb]

/-- Claim C6 witness: the amended theorem on a running tenant with one
registered timer. -/
theorem C6_witness :
    (save_interval (some 2) cfgRunning
      [{ chat_id := 1, interval := 420, first := 5 }] 1).jobs =
      [{ chat_id := 1, interval := 120, first := 1 }] := by
  have h := (C6_reschedule_keyed_on_flag 2 cfgRunning
    [{ chat_id := 1, interval := 420, first := 5 }] 1 (by decide)).2.1 rfl
  exact h.trans (by decide)

/-- Claim C9: `load_data` never fails observably: with no database
connection it returns pure defaults; on a never-written tenant it returns
exactly the default document; on a partial document it returns field-wise
defaults merged under the stored fields. -/
theorem C9_load_data_defaults (store : Int → Option StoredDoc) (chat_id : Int) :
    load_data false store chat_id = get_default_data ∧
    (store chat_id = none → load_data true store chat_id = get_default_data) ∧
    (∀ d : StoredDoc, store chat_id = some d →
      load_data true store chat_id =
        { userbot_session := d.userbot_session.getD none
          target_bots := d.target_bots.getD []
          ping_interval_seconds := d.ping_interval_seconds.getD 420
          is_running := d.is_running.getD false }) ∧
    get_default_data =
      { userbot_session := none, target_bots := [], ping_interval_seconds := 420
        is_running := false } := by
  refine ⟨rfl, ?_, ?_, rfl⟩
  · intro h
    simp [load_data, h]
  · intro d h
    simp [load_data, h, get_default_data]

/-- Claim C9 witness: the defaults on concrete stores. -/
theorem C9_witness :
    load_data false (fun _ => none) 1 = get_default_data ∧
    load_data true (fun _ => none) 1 = get_default_data ∧
    load_data true (fun _ => some docPartial) 1 =
      { userbot_session := none, target_bots := [], ping_interval_seconds := 60,
        is_running := true } :=
  ⟨(C9_load_data_defaults (fun _ => none) 1).1,
   (C9_load_data_defaults (fun _ => none) 1).2.1 rfl,
   (C9_load_data_defaults (fun _ => some docPartial) 1).2.2.1 docPartial rfl⟩

/-- Claim C10: an `@` followed by 33 word characters is not rejected: the
prefix of `@` and the first 32 characters is extracted as a handle and
added to the stored target list. -/
theorem C10_overlong_token_truncated :
    extract_handles (String.mk ('@' :: List.replicate 33 'a')) =
      [String.mk ('@' :: List.replicate 32 'a')] ∧
    (save_bot_username (String.mk ('@' :: List.replicate 33 'a'))
        "@keepalive_bot" get_default_data).data.target_bots =
      [String.mk ('@' :: List.replicate 32 'a')] ∧
    (save_bot_username (String.mk ('@' :: List.replicate 33 'a'))
        "@keepalive_bot" get_default_data).saved = true := by
  refine ⟨by decide, by decide, by decide⟩

/-- Claim C7: recovery registers a timer exactly for the tenants persisted
with `is_running = true`, at each one's persisted interval (default 420),
always with warm-up `first = 10`; a manual start registers with warm-up
`first = 5`, strictly shorter; and on the store `\x7bA: running at 60,
B: stopped\x7d` recovery yields exactly one timer, for A at interval 60. -/
theorem C7_recovery (store : List (Int × StoredDoc)) :
    (∀ chat_id i f : Int,
      ({ chat_id := chat_id, interval := i, first := f } : Job) ∈ post_init store ↔
        ∃ d : StoredDoc, (chat_id, d) ∈ store ∧ d.is_running = some true ∧
          i = d.ping_interval_seconds.getD 420 ∧ f = 10) ∧
    (∀ j ∈ post_init store, j.first = 10) ∧
    (∀ (data : TenantConfig) (jobs : List Job) (chat_id : Int),
      data.is_running = false → optStrTruthy data.userbot_session = true →
        (toggle_pinger data jobs chat_id).jobs =
          jobs ++ [{ chat_id := chat_id, interval := data.ping_interval_seconds,
                     first := 5 }]) ∧
    (5 : Int) < 10 ∧
    post_init storeAB = [{ chat_id := 1, interval := 60, first := 10 }] := by
  refine ⟨?_, ?_, ?_, by decide, by decide⟩
  · intro chat_id i f
    constructor
    · intro h
      simp only [post_init, List.mem_map, List.mem_filter] at h
      obtain ⟨t, ⟨hmem, hrun⟩, heq⟩ := h
      refine ⟨t.2, ?_, by simpa using hrun, ?_, ?_⟩
      · have h1 : t.1 = chat_id := congrArg Job.chat_id heq
        rw [← h1]
        simpa using hmem
      · exact (congrArg Job.interval heq).symm
      · exact (congrArg Job.first heq).symm
    · rintro ⟨d, hmem, hrun, hi, hf⟩
      subst hi
      subst hf
      simp only [post_init, List.mem_map, List.mem_filter]
      exact ⟨(chat_id, d), ⟨hmem, by simpa using hrun⟩, rfl⟩
  · intro j hj
    simp only [post_init, List.mem_map, List.mem_filter] at hj
    obtain ⟨t, _, heq⟩ := hj
    exact (congrArg Job.first heq).symm
  · intro data jobs chat_id h1 h2
    simp [toggle_pinger, h1, h2]

/-- Claim C7 witness: the characterization and the start warm-up,
instantiated. -/
theorem C7_witness :
    ({ chat_id := 1, interval := 60, first := 10 } : Job) ∈ post_init storeAB ∧
    (toggle_pinger { get_default_data with userbot_session := some "sess" }
        [] 1).jobs = [{ chat_id := 1, interval := 420, first := 5 }] := by
  constructor
  · refine ((C7_recovery storeAB).1 1 60 10).mpr
      ⟨docA, by decide, rfl, rfl, rfl⟩
  · have h := (C7_recovery storeAB).2.2.1
      { get_default_data with userbot_session := some "sess" } [] 1 rfl (by decide)
    exact h.trans (by decide)

/-- Claim C4: for a running tenant with a truthy session whose capability
acquisition succeeds, the fired cycle attempts activation against exactly
the deduplicated union of the stored targets and the self handle,
classifies each attempt into exactly one of the four outcome classes,
sends one report with exactly one line per handle carrying the class
label, and leaves the persisted document — in particular the running
flag — untouched. -/
theorem C4_ping_cycle_success (env : CycleEnv) (data : TenantConfig)
    (hr : data.is_running = true)
    (hs : optStrTruthy data.userbot_session = true)
    (ha : env.acquire = Except.ok ()) :
    (ping_bots_task env data).data = data ∧
    (ping_bots_task env data).data.is_running = true ∧
    (ping_bots_task env data).replies =
      [Msg.pingReport ((all_bots_to_ping data.target_bots env.my_bot_username).map
        (ping_line env.send))] ∧
    (all_bots_to_ping data.target_bots env.my_bot_username).Nodup ∧
    (∀ b, b ∈ all_bots_to_ping data.target_bots env.my_bot_username ↔
      b ∈ data.target_bots ∨ b = env.my_bot_username) ∧
    ((all_bots_to_ping data.target_bots env.my_bot_username).map
      (ping_line env.send)).length =
      (all_bots_to_ping data.target_bots env.my_bot_username).length ∧
    (∀ b ∈ all_bots_to_ping data.target_bots env.my_bot_username,
      (classify (env.send b) = Outcome.Ok ∧
        ping_line env.send b = "✅ `" ++ b ++ "`: OK") ∨
      (classify (env.send b) = Outcome.AlreadyActive ∧
        ping_line env.send b = "✅ `" ++ b ++ "`: Already started (OK)") ∨
      (classify (env.send b) = Outcome.InvalidTarget ∧
        ping_line env.send b = "❌ `" ++ b ++ "`: Invalid username") ∨
      (classify (env.send b) = Outcome.TransientError ∧
        ∃ n, env.send b = SendResult.otherError n ∧
          ping_line env.send b = "❌ `" ++ b ++ "`: Error (" ++ n ++ ")")) := by
  have hne := all_bots_ne_nil data.target_bots env.my_bot_username
  refine ⟨?_, ?_, ?_, ?_, ?_, ?_, ?_⟩
  · exact ping_ok_data env data hr hs (by simp [acquireOk, ha])
  · rw [ping_ok_data env data hr hs (by simp [acquireOk, ha])]
    exact hr
  · simp [ping_bots_task, hr, hs, hne, ha]
  · exact List.nodup_dedup _
  · intro b
    simp [all_bots_to_ping, List.mem_dedup, or_comm]
  · simp
  · intro b _
    cases hsend : env.send b with
    | success => exact Or.inl ⟨by simp [classify, hsend], by simp [ping_line, hsend]⟩
    | userIsBot =>
      exact Or.inr (Or.inl ⟨by simp [classify, hsend], by simp [ping_line, hsend]⟩)
    | peerIdInvalid =>
      exact Or.inr (Or.inr (Or.inl
        ⟨by simp [classify, hsend], by simp [ping_line, hsend]⟩))
    | otherError n =>
      exact Or.inr (Or.inr (Or.inr
        ⟨by simp [classify], n, rfl, by simp [ping_line, hsend]⟩))

/-- Claim C4 witness: the specification scenario — targets
`\x7b"@a_bot1", "@b_bot1"\x7d`, self handle `"@keepalive_bot"` — attempts
exactly 3 distinct handles and reports 3 lines, leaving the flag true. -/
theorem C4_witness :
    (ping_bots_task envOk cfgT42).data = cfgT42 ∧
    (ping_bots_task envOk cfgT42).data.is_running = true ∧
    (all_bots_to_ping cfgT42.target_bots envOk.my_bot_username).length = 3 ∧
    (ping_bots_task envOk cfgT42).replies =
      [Msg.pingReport ["✅ `@a_bot`: OK", "✅ `@b_bot`: OK",
        "✅ `@keepalive_bot`: OK"]] := by
  have h := C4_ping_cycle_success envOk cfgT42 rfl (by decide) rfl
  refine ⟨h.1, h.2.1, by decide, ?_⟩
  exact h.2.2.1.trans (by decide)

/-- Claim C2, counterexample: start, a cycle whose capability acquisition
fails (allowed by the claim, which ranges over fired ping cycles), then a
second start: two timers are registered for tenant 1 at once, because the
failing cycle left its timer registered and the start path registers
without cancelling. -/
theorem C2_counterexample :
    (jobs_for (runOps 1 [Op.toggle, Op.ping envFail, Op.toggle] s0).jobs 1).length
      = 2 := by
  decide

/-- Claim C2 (amended): the at-most-one-timer-per-tenant invariant holds
at every observation point of every operation sequence in which no fired
ping cycle takes a stopping path (`benignRun`); the order matters because
a cycle that stops the pinger sets `running = false` while leaving the
timer registered, after which the start path of `toggle_pinger` — which
registers without first cancelling — stacks a second timer. -/
theorem C2_single_timer (chat_id : Int) (s : BotState) (ops : List Op)
    (h0 : singleTimerInv chat_id s) (hb : benignRun chat_id ops s) :
    ∀ pre suf : List Op, ops = pre ++ suf →
      (jobs_for (runOps chat_id pre s).jobs chat_id).length ≤ 1 := by
  intro pre suf hsplit
  subst hsplit
  have hb' := benignRun_append chat_id pre suf s hb
  exact (inv_runOps chat_id pre s h0 hb').1

/-- Claim C2 witness: a benign sequence with a successful cycle, an
interval update and two toggles keeps at most one timer registered. -/
theorem C2_witness :
    (jobs_for (runOps 1 [Op.setSession "sess", Op.toggle, Op.ping envOk,
      Op.setInterval (some 2), Op.toggle, Op.toggle]
      { cfg := get_default_data, jobs := [] }).jobs 1).length ≤ 1 := by
  refine C2_single_timer 1 { cfg := get_default_data, jobs := [] }
    [Op.setSession "sess", Op.toggle, Op.ping envOk,
      Op.setInterval (some 2), Op.toggle, Op.toggle]
    (by decide) (by decide)
    [Op.setSession "sess", Op.toggle, Op.ping envOk,
      Op.setInterval (some 2), Op.toggle, Op.toggle] [] ?_
  simp

/-- Claim C8: target adding. When extraction is empty the handler stays in
`AWAIT_BOT_USERNAME` with nothing changed; the document is written once,
exactly when an addition occurred, and then holds a deduplicated,
lexicographically sorted list whose members are the old targets plus the
extracted handles other than the self handle; every extracted handle is
accounted exactly once as added or skipped; additions are new, distinct
and never the self handle, so the self handle never enters `targets` and
re-adding a handle leaves one occurrence. -/
theorem C8_add_targets (raw_text my : String) (data : TenantConfig) :
    (extract_handles raw_text = [] →
      save_bot_username raw_text my data =
        { data := data, saved := false, added := [], skipped := [],
          next_state := AWAIT_BOT_USERNAME }) ∧
    ((save_bot_username raw_text my data).saved = true →
      (save_bot_username raw_text my data).data.target_bots.Sorted (· ≤ ·) ∧
      (save_bot_username raw_text my data).data.target_bots.Nodup ∧
      (∀ b, b ∈ (save_bot_username raw_text my data).data.target_bots ↔
        b ∈ data.target_bots ∨ (b ∈ extract_handles raw_text ∧ b ≠ my))) ∧
    ((save_bot_username raw_text my data).saved = false →
      (save_bot_username raw_text my data).data = data) ∧
    ((save_bot_username raw_text my data).saved = true ↔
      (save_bot_username raw_text my data).added ≠ []) ∧
    my ∉ (save_bot_username raw_text my data).added ∧
    (∀ b ∈ (save_bot_username raw_text my data).added, b ∉ data.target_bots) ∧
    (save_bot_username raw_text my data).added.Nodup ∧
    (∀ b, (extract_handles raw_text).count b =
      (save_bot_username raw_text my data).added.count b +
      ((save_bot_username raw_text my data).skipped.map Prod.fst).count b) ∧
    (my ∉ data.target_bots →
      my ∉ (save_bot_username raw_text my data).data.target_bots) ∧
    (extract_handles raw_text ≠ [] →
      (save_bot_username raw_text my data).next_state = MANAGE_BOTS) := by
  by_cases hpb : extract_handles raw_text = []
  · refine ⟨fun _ => by simp [save_bot_username, hpb], ?_, ?_, ?_, ?_, ?_, ?_,
      ?_, ?_, ?_⟩
    · intro hsaved
      simp [save_bot_username, hpb] at hsaved
    · intro _
      simp [save_bot_username, hpb]
    · simp [save_bot_username, hpb]
    · simp [save_bot_username, hpb]
    · simp [save_bot_username, hpb]
    · simp [save_bot_username, hpb]
    · intro b
      simp [save_bot_username, hpb]
    · intro hmy
      simp only [save_bot_username, hpb]
      exact hmy
    · intro hne
      exact absurd hpb hne
  · have hnd0 : data.target_bots.dedup.Nodup := List.nodup_dedup _
    by_cases hadd :
        (add_bots_loop my (extract_handles raw_text)
          data.target_bots.dedup [] []).2.1 = []
    · have heq : save_bot_username raw_text my data =
          { data := data, saved := false
            added := (add_bots_loop my (extract_handles raw_text)
              data.target_bots.dedup [] []).2.1
            skipped := (add_bots_loop my (extract_handles raw_text)
              data.target_bots.dedup [] []).2.2
            next_state := MANAGE_BOTS } := by
        simp [save_bot_username, hpb, hadd]
      refine ⟨fun h => absurd h hpb, ?_, ?_, ?_, ?_, ?_, ?_, ?_, ?_, ?_⟩
      · intro hsaved
        rw [heq] at hsaved
        simp at hsaved
      · intro _
        rw [heq]
      · rw [heq]
        simp [hadd]
      · rw [heq]
        simp [hadd]
      · rw [heq]
        simp [hadd]
      · rw [heq]
        simp [hadd]
      · intro b
        rw [heq]
        have hc := add_bots_loop_count my (extract_handles raw_text)
          data.target_bots.dedup [] [] b
        simpa using hc.symm
      · intro hmy
        rw [heq]
        exact hmy
      · intro _
        rw [heq]
    · have heq : save_bot_username raw_text my data =
          { data := { data with target_bots :=
              (add_bots_loop my (extract_handles raw_text)
                data.target_bots.dedup [] []).1.insertionSort (· ≤ ·) }
            saved := true
            added := (add_bots_loop my (extract_handles raw_text)
              data.target_bots.dedup [] []).2.1
            skipped := (add_bots_loop my (extract_handles raw_text)
              data.target_bots.dedup [] []).2.2
            next_state := MANAGE_BOTS } := by
        simp [save_bot_username, hpb, hadd]
      have hperm := List.perm_insertionSort (· ≤ ·)
        (add_bots_loop my (extract_handles raw_text)
          data.target_bots.dedup [] []).1
      have hmem : ∀ b, b ∈ (add_bots_loop my (extract_handles raw_text)
          data.target_bots.dedup [] []).1 ↔
            b ∈ data.target_bots ∨ (b ∈ extract_handles raw_text ∧ b ≠ my) := by
        intro b
        rw [add_bots_loop_mem my (extract_handles raw_text)
          data.target_bots.dedup [] [] b, List.mem_dedup]
      refine ⟨fun h => absurd h hpb, ?_, ?_, ?_, ?_, ?_, ?_, ?_, ?_, ?_⟩
      · intro _
        rw [heq]
        refine ⟨List.sorted_insertionSort _ _, ?_, ?_⟩
        · exact hperm.nodup_iff.mpr
            (add_bots_loop_nodup my (extract_handles raw_text)
              data.target_bots.dedup [] [] hnd0)
        · intro b
          exact hperm.mem_iff.trans (hmem b)
      · intro hsaved
        rw [heq] at hsaved
        simp at hsaved
      · rw [heq]
        simp [hadd]
      · rw [heq]
        intro hc
        rcases add_bots_loop_added_mem my (extract_handles raw_text)
          data.target_bots.dedup [] [] my hc with hx | ⟨hx, _, _⟩
        · simp at hx
        · exact hx rfl
      · rw [heq]
        intro b hb
        rcases add_bots_loop_added_mem my (extract_handles raw_text)
          data.target_bots.dedup [] [] b hb with hx | ⟨_, hy, _⟩
        · simp at hx
        · rw [List.mem_dedup] at hy
          exact hy
      · rw [heq]
        exact add_bots_loop_added_nodup my (extract_handles raw_text)
          data.target_bots.dedup [] [] List.nodup_nil (by simp)
      · intro b
        rw [heq]
        have hc := add_bots_loop_count my (extract_handles raw_text)
          data.target_bots.dedup [] [] b
        simpa using hc.symm
      · intro hmy
        rw [heq]
        intro hcontra
        have hcontra2 : my ∈ (add_bots_loop my (extract_handles raw_text)
            data.target_bots.dedup [] []).1 := hperm.mem_iff.mp hcontra
        rcases (hmem my).mp hcontra2 with hx | ⟨_, hy⟩
        · exact hmy hx
        · exact hy rfl
      · intro _
        rw [heq]

/-- Claim C8 witness: a message re-adding a handle and naming the self
handle yields a sorted result, no self handle among the additions, and
both occurrences of the duplicate accounted for. -/
theorem C8_witness :
    (save_bot_username "@abcde @abcde @keepalive_bot @bbbbb" "@keepalive_bot"
      get_default_data).data.target_bots.Sorted (· ≤ ·) ∧
    "@keepalive_bot" ∉ (save_bot_username "@abcde @abcde @keepalive_bot @bbbbb"
      "@keepalive_bot" get_default_data).added ∧
    (extract_handles "@abcde @abcde @keepalive_bot @bbbbb").count "@abcde" =
      (save_bot_username "@abcde @abcde @keepalive_bot @bbbbb" "@keepalive_bot"
        get_default_data).added.count "@abcde" +
      ((save_bot_username "@abcde @abcde @keepalive_bot @bbbbb" "@keepalive_bot"
        get_default_data).skipped.map Prod.fst).count "@abcde" := by
  have h := C8_add_targets "@abcde @abcde @keepalive_bot @bbbbb" "@keepalive_bot"
    get_default_data
  exact ⟨(h.2.1 (by decide)).1, h.2.2.2.2.1, h.2.2.2.2.2.2.2.1 "@abcde"⟩

end KeepAlive
